import Mathlib

/-!
Verification development for the SAM2 segmentation orchestration service
(`python-backend/sam2_service`): the mask post-processor, the prompt router,
the HTTP segment/health handlers, the mask transport codec, and the model
load lifecycle are embedded as executable Lean definitions, and the design
document's properties are settled against them.
-/

namespace ScrapLens

/-- A boolean segmentation mask, flattened to a list of pixels.  All masks of
one request share the source image's dimensions, so pixelwise operations use
`List.zipWith`. -/
abbrev Mask := List Bool

/-- A raw mask candidate as produced by `SAM2AutomaticMaskGenerator.generate`:
the dictionary fields the post-processor reads (`segmentation`,
`predicted_iou`).  Scores are embedded as rationals. -/
structure MaskData where
  segmentation : Mask
  predicted_iou : ℚ
deriving DecidableEq, Repr

/-- Embedding of `SAM2Predictor._calculate_mask_iou`: intersection pixel count
over union pixel count, `0` when the union is empty. -/
def calculate_mask_iou (mask1 mask2 : Mask) : ℚ :=
  let intersection := (List.zipWith (fun a b => a && b) mask1 mask2).count true
  let union := (List.zipWith (fun a b => a || b) mask1 mask2).count true
  if union = 0 then 0 else (intersection : ℚ) / (union : ℚ)

/-- The fixed IoU threshold `overlap_threshold = 0.6` of
`_filter_overlapping_masks`. -/
def overlap_threshold : ℚ := 6/10

/-- The fixed cap `max_masks = 25` of `segment_everything`. -/
def max_masks : Nat := 25

/-- One insertion step of a stable descending sort on `predicted_iou`: the new
element is placed after every already-placed element of greater-or-equal
score.  Folding this over the input embeds Python's stable
`sorted(masks, key=lambda x: x['predicted_iou'], reverse=True)`. -/
def insertDesc (x : MaskData) : List MaskData → List MaskData
  | [] => [x]
  | y :: ys =>
      if x.predicted_iou ≤ y.predicted_iou then y :: insertDesc x ys
      else x :: y :: ys

/-- Stable descending sort by `predicted_iou` (ties keep input order),
embedding `sorted(..., reverse=True)` / `list.sort(..., reverse=True)`. -/
def sortByScoreDesc (l : List MaskData) : List MaskData :=
  l.foldl (fun acc x => insertDesc x acc) []

/-- The overlap test of `_filter_overlapping_masks`'s inner loop: whether the
current mask has IoU strictly above the threshold against any already selected
mask (the Python loop with its `break` is `List.any`). -/
def is_overlapping (filtered : List MaskData) (current : MaskData) : Bool :=
  filtered.any fun s =>
    decide (overlap_threshold < calculate_mask_iou current.segmentation s.segmentation)

/-- The greedy scan of `_filter_overlapping_masks`: candidates are taken in
order and appended to the accepted list exactly when they do not overlap any
already accepted mask. -/
def greedyAccept (l : List MaskData) : List MaskData :=
  l.foldl (fun filtered current =>
    if is_overlapping filtered current then filtered else filtered ++ [current]) []

/-- Embedding of `SAM2Predictor._filter_overlapping_masks`: lists of length at
most one are returned unchanged; otherwise the candidates are sorted by score
descending and greedily scanned. -/
def filter_overlapping_masks (masks : List MaskData) : List MaskData :=
  if masks.length ≤ 1 then masks
  else greedyAccept (sortByScoreDesc masks)

/-- Embedding of the post-processing tail of `SAM2Predictor.segment_everything`
(lines 168-174): filter overlapping masks, sort the survivors by score
descending, truncate to `max_masks`. -/
def segment_everything_post (masks : List MaskData) : List MaskData :=
  (sortByScoreDesc (filter_overlapping_masks masks)).take max_masks

/-- The everything-mode post-processor as the design document words it
(§4.4): stable-sort all candidates by quality descending, greedily accept a
candidate exactly when its IoU against every already accepted mask is at most
the fixed threshold, then truncate the accepted list to at most 25 entries. -/
def everythingSuppressSpec (masks : List MaskData) : List MaskData :=
  (greedyAccept (sortByScoreDesc masks)).take max_masks

/-- Pairwise at-most-threshold overlap between two mask candidates. -/
def iouLE (a b : MaskData) : Prop :=
  calculate_mask_iou a.segmentation b.segmentation ≤ overlap_threshold

/-- A decoded raster image; the handlers only consume its shape
(`image_array.shape[:2]`), so the embedding keeps height and width. -/
structure RasterImage where
  height : Nat
  width : Nat
deriving DecidableEq, Repr

/-- A point prompt `[x, y]`. -/
abbrev Pt := Int × Int

/-- A box prompt `[x1, y1, x2, y2]`. -/
abbrev Box := Int × Int × Int × Int

/-- A call to the underlying model collaborator
(`SAM2AutomaticMaskGenerator.generate` or `SAM2ImagePredictor.predict`). -/
inductive ModelCall where
  | generateEverything
  | predictPoints (points : List Pt) (multimask : Bool)
  | predictBox (box : Box) (multimask : Bool)
deriving DecidableEq, Repr

/-- Embedding of the box loop of `SAM2Predictor.segment_with_boxes`
(`sam2_predictor.py` 321-340, after the loaded check): the predictor is
invoked once per box with `multimask_output=False`, and the returned masks and
scores are concatenated across boxes in input order.  `predict` is the
external `SAM2ImagePredictor.predict` collaborator; the second component
records the trace of predictor invocations. -/
def segment_with_boxes_loop (predict : Box → Bool → List Mask × List ℚ)
    (boxes : List Box) : (List Mask × List ℚ) × List ModelCall :=
  boxes.foldl
    (fun acc box =>
      let r := predict box false
      ((acc.1.1 ++ r.1, acc.1.2 ++ r.2), acc.2 ++ [ModelCall.predictBox box false]))
    (([], []), [])

/-- Embedding of `SAM2Predictor.segment_everything` (`sam2_predictor.py`
135-193): raises `RuntimeError("Model not loaded")` when the inner predictor
is absent; otherwise runs the external generator (its outcome is the `raw`
parameter) and post-processes the candidates.  Failure is `Except.error`. -/
def predictor_segment_everything (loaded : Bool)
    (raw : Except String (List MaskData)) :
    Except String (List Mask × List ℚ) × List ModelCall :=
  if loaded then
    match raw with
    | Except.error e => (Except.error e, [ModelCall.generateEverything])
    | Except.ok masks =>
        let fm := segment_everything_post masks
        (Except.ok (fm.map (·.segmentation), fm.map (·.predicted_iou)),
         [ModelCall.generateEverything])
  else (Except.error "Model not loaded", [])

/-- Embedding of `SAM2Predictor.segment_with_points` (`sam2_predictor.py`
265-301): loaded check, then one multi-output predict call whose outcome is
the `raw` parameter. -/
def predictor_segment_with_points (loaded : Bool) (points : List Pt)
    (raw : Except String (List Mask × List ℚ)) :
    Except String (List Mask × List ℚ) × List ModelCall :=
  if loaded then (raw, [ModelCall.predictPoints points true])
  else (Except.error "Model not loaded", [])

/-- Embedding of `SAM2Predictor.segment_with_boxes` (`sam2_predictor.py`
303-344): loaded check, then the per-box loop. -/
def predictor_segment_with_boxes (loaded : Bool)
    (predict : Box → Bool → List Mask × List ℚ) (boxes : List Box) :
    Except String (List Mask × List ℚ) × List ModelCall :=
  if loaded then
    let r := segment_with_boxes_loop predict boxes
    (Except.ok r.1, r.2)
  else (Except.error "Model not loaded", [])

/-- Truthiness of an optional list parameter in Python (`None` and `[]` are
falsy). -/
def optNonempty {α : Type} : Option (List α) → Bool
  | none => false
  | some l => !l.isEmpty

/-- Embedding of `run_segmentation`'s mode dispatch (`main.py` 133-142):
`everything` → `segment_everything`; `points` with a truthy point list →
`segment_with_points`; `boxes` with a truthy box list → `segment_with_boxes`;
anything else raises `ValueError("Invalid segmentation mode: <mode>")`. -/
def run_segmentation (loaded : Bool)
    (everythingRaw : Except String (List MaskData))
    (pointsRaw : Except String (List Mask × List ℚ))
    (predict : Box → Bool → List Mask × List ℚ)
    (mode : String) (points : Option (List Pt)) (boxes : Option (List Box)) :
    Except String (List Mask × List ℚ) × List ModelCall :=
  if mode = "everything" then predictor_segment_everything loaded everythingRaw
  else if mode = "points" ∧ optNonempty points = true then
    predictor_segment_with_points loaded (points.getD []) pointsRaw
  else if mode = "boxes" ∧ optNonempty boxes = true then
    predictor_segment_with_boxes loaded predict (boxes.getD [])
  else (Except.error ("Invalid segmentation mode: " ++ mode), [])

/-- One element of the response's `masks` array (`main.py` 274-279). -/
structure MaskResult where
  id : Nat
  mask : String
  score : ℚ
  area : Nat
deriving DecidableEq, Repr

/-- The success body of `/segment` and `/segment-url` (`main.py` 281-287). -/
structure SegmentationResponse where
  success : Bool
  mode : String
  num_masks : Nat
  masks : List MaskResult
  image_shape : Nat × Nat
deriving DecidableEq, Repr

/-- Outcome of one HTTP request: a JSON success response, or an
`HTTPException(status_code, detail)` translated by FastAPI. -/
inductive HandlerResult where
  | ok (resp : SegmentationResponse)
  | httpError (status : Nat) (detail : String)
deriving DecidableEq, Repr

/-- Embedding of the mask-encoding loop of `segment_image` / `segment_image_url`
(`main.py` 271-279 and 339-347): `id` is the enumeration index, `score` is
`float(scores[i]) if i < len(scores) else 0.0`, `area` is `int(np.sum(mask))`;
`enc` stands for `encode_mask_to_base64`. -/
def build_mask_results (enc : Mask → String) (masks : List Mask) (scores : List ℚ) :
    List MaskResult :=
  masks.enum.map fun p =>
    { id := p.1, mask := enc p.2, score := scores.getD p.1 0, area := p.2.count true }

/-- The process-wide lifecycle state the handlers observe: whether the global
`predictor` object exists (it is `None` until constructed), and whether its
load completed (`load_model` sets `self.model` and `self.predictor` together
on success, so one flag models both; a failed or pending load leaves it
`false`). -/
structure ServiceState where
  predictorExists : Bool
  modelLoaded : Bool
deriving DecidableEq, Repr

/-- Embedding of the `/segment` handler (`main.py` 221-291).  External
collaborators are parameters: `decode` is PIL's open/convert (`none` models an
undecodable byte stream), `enc` the mask encoder, and `everythingRaw`,
`pointsRaw`, `predict` the model collaborator outcomes.  The second component
is the trace of model invocations.  The `except Exception` at line 289
re-raises every exception of the guarded block - including the
`HTTPException(400, "Invalid image data")` raised by `process_image_data` and
the `RuntimeError("Model not loaded")` from the predictor - as an
`HTTPException(500, str(e))`; starlette's `str` of an `HTTPException` is
`"<status>: <detail>"`, hence the 500 with detail `"400: Invalid image data"`
on an undecodable image. -/
def segment_image_handler (st : ServiceState)
    (decode : List Nat → Option RasterImage) (enc : Mask → String)
    (everythingRaw : Except String (List MaskData))
    (pointsRaw : Except String (List Mask × List ℚ))
    (predict : Box → Bool → List Mask × List ℚ)
    (imageBytes : List Nat) (mode : String)
    (points : Option (List Pt)) (boxes : Option (List Box)) :
    HandlerResult × List ModelCall :=
  if st.predictorExists = false then
    (HandlerResult.httpError 503 "SAM 2 model not loaded", [])
  else
    match decode imageBytes with
    | none => (HandlerResult.httpError 500 "400: Invalid image data", [])
    | some img =>
        match run_segmentation st.modelLoaded everythingRaw pointsRaw predict
            mode points boxes with
        | (Except.error e, calls) => (HandlerResult.httpError 500 e, calls)
        | (Except.ok (masks, scores), calls) =>
            let encoded := build_mask_results enc masks scores
            (HandlerResult.ok
              { success := true, mode := mode, num_masks := encoded.length,
                masks := encoded, image_shape := (img.height, img.width) }, calls)

/-- The `/health` response body (`main.py` 173-180; the constant timestamp
field is omitted). -/
structure HealthBody where
  status : String
  model_loaded : Bool
  device : String
  service_running : Bool
  message : String
deriving DecidableEq, Repr

/-- Embedding of the `/health` handler (`main.py` 162-199): it always returns
HTTP 200, with `model_loaded` true exactly when the predictor object exists
and its model is loaded (`predictor is not None and predictor.model is not
None`). -/
def health_check (st : ServiceState) (device : String) : Nat × HealthBody :=
  let model_loaded := st.predictorExists && st.modelLoaded
  (200,
   { status := "healthy", model_loaded := model_loaded,
     device := if st.predictorExists then device else "unknown",
     service_running := true,
     message := if model_loaded then "Service ready" else "Model loading in progress..." })

/-- The alphabet used by `base64.b64encode`. -/
def base64Alphabet : List Char :=
  "ABCDEFGHIJKLMNOPQRSTUVWXYZabcdefghijklmnopqrstuvwxyz0123456789+/".toList

/-- The character for a six-bit group. -/
def b64Char (n : Nat) : Char := base64Alphabet.getD n 'A'

/-- The six-bit value of an alphabet character. -/
def b64Val (c : Char) : Nat := base64Alphabet.indexOf c

/-- Standard base64 encoding of a byte list (the `base64.b64encode` call of
`encode_mask_to_base64`): three bytes become four alphabet characters, a
final one- or two-byte group is padded with `=`. -/
def b64EncodeBytes : List Nat → List Char
  | [] => []
  | [a] => [b64Char (a / 4), b64Char (a % 4 * 16), '=', '=']
  | [a, b] => [b64Char (a / 4), b64Char (a % 4 * 16 + b / 16), b64Char (b % 16 * 4), '=']
  | a :: b :: c :: rest =>
      b64Char (a / 4) :: b64Char (a % 4 * 16 + b / 16) :: b64Char (b % 16 * 4 + c / 64)
        :: b64Char (c % 64) :: b64EncodeBytes rest

/-- Standard base64 decoding back to bytes, honouring `=` padding. -/
def b64DecodeChars : List Char → List Nat
  | c1 :: c2 :: c3 :: c4 :: rest =>
      if c3 = '=' then [b64Val c1 * 4 + b64Val c2 / 16]
      else if c4 = '=' then
        [b64Val c1 * 4 + b64Val c2 / 16, b64Val c2 % 16 * 16 + b64Val c3 / 4]
      else
        (b64Val c1 * 4 + b64Val c2 / 16)
          :: (b64Val c2 % 16 * 16 + b64Val c3 / 4)
          :: (b64Val c3 % 4 * 64 + b64Val c4)
          :: b64DecodeChars rest
  | _ => []

/-- Modelled from the spec: the "lossless compressed image format" serializer
(PIL `Image.save(..., format='PNG')` in `encode_mask_to_base64`) and its
decoder are external-library code not present in src; they are modelled as an
abstract byte-level codec carrying the spec's losslessness property and
producing byte-valued output. -/
structure LosslessCodec where
  enc : List Nat → List Nat
  dec : List Nat → List Nat
  enc_bytes : ∀ px, (∀ x ∈ px, x < 256) → ∀ b ∈ enc px, b < 256
  roundtrip : ∀ px, dec (enc px) = px

/-- The identity serializer: a concrete inhabitant of `LosslessCodec`. -/
def idCodec : LosslessCodec :=
  { enc := id, dec := id, enc_bytes := fun _ h => h, roundtrip := fun _ => rfl }

/-- Embedding of `encode_mask_to_base64` (`main.py` 97-123): the boolean mask
becomes 8-bit pixels by `(mask * 255).astype(np.uint8)` (true→255, false→0),
is serialized losslessly, and base64-encoded to text. -/
def encode_mask_to_base64 (codec : LosslessCodec) (mask : Mask) : String :=
  String.mk (b64EncodeBytes (codec.enc (mask.map fun b => if b then 255 else 0)))

/-- Modelled from the spec: decoding the transported mask back to a boolean
array (the consumer side of the round-trip property) is not in src; per the
spec it is the text decoding, the lossless image decoding, and nonzero pixel →
true. -/
def decode_mask_from_base64 (codec : LosslessCodec) (s : String) : Mask :=
  (codec.dec (b64DecodeChars s.toList)).map fun p => p != 0

/-- Program counter of one caller of `POST /load-model` (`main.py` 201-219),
split at its await points: `start` before the already-loaded check,
`willLoad` after observing an unloaded model and before executing
`load_model()` (the check and the load are separated by awaits, so the other
caller may run in between), and the two terminal states. -/
inductive LoadPC where
  | start
  | willLoad
  | doneLoaded
  | doneSkipped
deriving DecidableEq, Repr

/-- Shared state of the two-caller load race: whether `predictor.model` is
set, how many underlying `load_model()` executions ran, and each caller's
program counter. -/
structure LoadRaceState where
  modelLoaded : Bool
  loadCount : Nat
  pcA : LoadPC
  pcB : LoadPC
deriving DecidableEq, Repr

/-- One atomic step of a single caller: the already-loaded check
(`predictor.model is not None`), or the awaited `load_model()` body, which
sets the model and counts one underlying load. -/
def stepThread (pc : LoadPC) (modelLoaded : Bool) : LoadPC × Bool × Bool :=
  match pc with
  | LoadPC.start =>
      if modelLoaded then (LoadPC.doneSkipped, modelLoaded, false)
      else (LoadPC.willLoad, modelLoaded, false)
  | LoadPC.willLoad => (LoadPC.doneLoaded, true, true)
  | LoadPC.doneLoaded => (LoadPC.doneLoaded, modelLoaded, false)
  | LoadPC.doneSkipped => (LoadPC.doneSkipped, modelLoaded, false)

/-- Scheduler step: `true` runs caller A, `false` runs caller B. -/
def stepRace (st : LoadRaceState) (chooseA : Bool) : LoadRaceState :=
  if chooseA then
    let r := stepThread st.pcA st.modelLoaded
    { st with
      pcA := r.1
      modelLoaded := r.2.1
      loadCount := st.loadCount + (if r.2.2 then 1 else 0) }
  else
    let r := stepThread st.pcB st.modelLoaded
    { st with
      pcB := r.1
      modelLoaded := r.2.1
      loadCount := st.loadCount + (if r.2.2 then 1 else 0) }

/-- Run a schedule of interleaving choices. -/
def runSchedule (st : LoadRaceState) (sched : List Bool) : LoadRaceState :=
  sched.foldl stepRace st

/-- Both callers arrive while the model state is Unloaded. -/
def initRace : LoadRaceState :=
  { modelLoaded := false, loadCount := 0, pcA := LoadPC.start, pcB := LoadPC.start }

/-- Contribution of one caller to the load count: `1` once it has completed a
load. -/
def pcLoadContrib (pc : LoadPC) : Nat :=
  match pc with
  | LoadPC.doneLoaded => 1
  | _ => 0

/-- Invariant of the load race: the count of executed loads equals the two
callers' contributions. -/
def raceInv (st : LoadRaceState) : Prop :=
  st.loadCount = pcLoadContrib st.pcA + pcLoadContrib st.pcB

/-- The HTTP status of a handler outcome (FastAPI returns 200 for a plain
JSON body). -/
def resultStatus : HandlerResult → Nat
  | HandlerResult.ok _ => 200
  | HandlerResult.httpError s _ => s

theorem zipWith_and_comm : ∀ m1 m2 : Mask,
    List.zipWith (fun a b => a && b) m1 m2 = List.zipWith (fun a b => a && b) m2 m1
  | [], m2 => by cases m2 <;> rfl
  | _ :: _, [] => rfl
  | a :: m1, b :: m2 => by
      simp only [List.zipWith, Bool.and_comm]
      exact congrArg _ (zipWith_and_comm m1 m2)

theorem zipWith_or_comm : ∀ m1 m2 : Mask,
    List.zipWith (fun a b => a || b) m1 m2 = List.zipWith (fun a b => a || b) m2 m1
  | [], m2 => by cases m2 <;> rfl
  | _ :: _, [] => rfl
  | a :: m1, b :: m2 => by
      simp only [List.zipWith, Bool.or_comm]
      exact congrArg _ (zipWith_or_comm m1 m2)

theorem calculate_mask_iou_comm (m1 m2 : Mask) :
    calculate_mask_iou m1 m2 = calculate_mask_iou m2 m1 := by
  unfold calculate_mask_iou
  rw [zipWith_and_comm, zipWith_or_comm]

theorem insertDesc_perm (x : MaskData) (acc : List MaskData) :
    (insertDesc x acc).Perm (x :: acc) := by
  induction acc with
  | nil => exact List.Perm.refl _
  | cons y ys ih =>
      by_cases hle : x.predicted_iou ≤ y.predicted_iou
      · simp only [insertDesc, if_pos hle]
        exact (ih.cons y).trans (List.Perm.swap x y ys)
      · simp only [insertDesc, if_neg hle]
        exact List.Perm.refl _

theorem insertDesc_append (x : MaskData) (acc : List MaskData)
    (h : ∀ y ∈ acc, x.predicted_iou ≤ y.predicted_iou) :
    insertDesc x acc = acc ++ [x] := by
  induction acc with
  | nil => rfl
  | cons y ys ih =>
      simp only [insertDesc, if_pos (h y (List.mem_cons_self y ys))]
      rw [ih fun z hz => h z (List.mem_cons_of_mem y hz)]
      rfl

theorem insertDesc_sorted {x : MaskData} {acc : List MaskData}
    (h : List.Pairwise (fun a b => b.predicted_iou ≤ a.predicted_iou) acc) :
    List.Pairwise (fun a b => b.predicted_iou ≤ a.predicted_iou) (insertDesc x acc) := by
  induction acc with
  | nil => exact List.pairwise_singleton _ x
  | cons y ys ih =>
      rw [List.pairwise_cons] at h
      obtain ⟨hy, hys⟩ := h
      by_cases hle : x.predicted_iou ≤ y.predicted_iou
      · simp only [insertDesc, if_pos hle]
        rw [List.pairwise_cons]
        refine ⟨fun z hz => ?_, ih hys⟩
        rcases List.mem_cons.mp (((insertDesc_perm x ys).mem_iff).mp hz) with hzx | hzy
        · rw [hzx]; exact hle
        · exact hy z hzy
      · simp only [insertDesc, if_neg hle]
        rw [List.pairwise_cons]
        refine ⟨fun z hz => ?_, List.pairwise_cons.mpr ⟨hy, hys⟩⟩
        rcases List.mem_cons.mp hz with hzy | hzys
        · rw [hzy]; exact le_of_lt (lt_of_not_le hle)
        · exact le_trans (hy z hzys) (le_of_lt (lt_of_not_le hle))

theorem foldl_insertDesc_perm :
    ∀ (l acc : List MaskData),
      (List.foldl (fun a x => insertDesc x a) acc l).Perm (acc ++ l)
  | [], acc => by simp
  | x :: l, acc => by
      simp only [List.foldl_cons]
      refine (foldl_insertDesc_perm l (insertDesc x acc)).trans ?_
      refine (((insertDesc_perm x acc).append_right l).trans ?_)
      exact (List.perm_middle).symm

theorem sortByScoreDesc_perm (l : List MaskData) : (sortByScoreDesc l).Perm l := by
  simpa using foldl_insertDesc_perm l []

theorem foldl_insertDesc_sorted :
    ∀ (l acc : List MaskData),
      List.Pairwise (fun a b => b.predicted_iou ≤ a.predicted_iou) acc →
      List.Pairwise (fun a b => b.predicted_iou ≤ a.predicted_iou)
        (List.foldl (fun a x => insertDesc x a) acc l)
  | [], acc, h => h
  | x :: l, acc, h => by
      simp only [List.foldl_cons]
      exact foldl_insertDesc_sorted l (insertDesc x acc) (insertDesc_sorted h)

theorem sortByScoreDesc_sorted (l : List MaskData) :
    List.Pairwise (fun a b => b.predicted_iou ≤ a.predicted_iou) (sortByScoreDesc l) :=
  foldl_insertDesc_sorted l [] (by simp)

theorem foldl_insertDesc_of_sorted :
    ∀ (l acc : List MaskData),
      List.Pairwise (fun a b => b.predicted_iou ≤ a.predicted_iou) (acc ++ l) →
      List.foldl (fun a x => insertDesc x a) acc l = acc ++ l
  | [], acc, _ => by simp
  | x :: l, acc, h => by
      simp only [List.foldl_cons]
      have hins : insertDesc x acc = acc ++ [x] := by
        refine insertDesc_append x acc fun y hy => ?_
        have := (List.pairwise_append.mp h).2.2 y hy x (List.mem_cons_self x l)
        exact this
      rw [hins]
      have h' : List.Pairwise (fun a b => b.predicted_iou ≤ a.predicted_iou)
          ((acc ++ [x]) ++ l) := by
        simpa [List.append_assoc] using h
      rw [foldl_insertDesc_of_sorted l (acc ++ [x]) h']
      simp

theorem sortByScoreDesc_of_sorted {l : List MaskData}
    (h : List.Pairwise (fun a b => b.predicted_iou ≤ a.predicted_iou) l) :
    sortByScoreDesc l = l := by
  simpa using foldl_insertDesc_of_sorted l [] (by simpa using h)

theorem filter_insertDesc (q : ℚ) (x : MaskData) {acc : List MaskData}
    (hs : List.Pairwise (fun a b => b.predicted_iou ≤ a.predicted_iou) acc) :
    (insertDesc x acc).filter (fun m => decide (m.predicted_iou = q))
      = (acc ++ [x]).filter (fun m => decide (m.predicted_iou = q)) := by
  induction acc with
  | nil => rfl
  | cons y ys ih =>
      rw [List.pairwise_cons] at hs
      obtain ⟨hy, hys⟩ := hs
      by_cases hle : x.predicted_iou ≤ y.predicted_iou
      · simp only [insertDesc, if_pos hle, List.cons_append, List.filter_cons, ih hys]
      · simp only [insertDesc, if_neg hle]
        by_cases hxq : x.predicted_iou = q
        · have hlt : y.predicted_iou < x.predicted_iou := lt_of_not_le hle
          have hnil : (y :: ys).filter (fun m => decide (m.predicted_iou = q)) = [] := by
            rw [List.filter_eq_nil_iff]
            intro a ha
            rcases List.mem_cons.mp ha with hay | hays
            · subst hay
              simp only [decide_eq_true_eq]
              intro hyq
              rw [← hxq] at hyq
              exact absurd hyq (ne_of_lt hlt)
            · simp only [decide_eq_true_eq]
              intro haq
              have : a.predicted_iou ≤ y.predicted_iou := hy a hays
              rw [haq, ← hxq] at this
              exact absurd this hle
          rw [List.filter_cons_of_pos (by simpa using hxq), List.filter_append, hnil]
          simp [hxq]
        · rw [List.filter_cons_of_neg (by simpa using hxq), List.filter_append]
          simp [hxq]

theorem foldl_insertDesc_filter (q : ℚ) :
    ∀ (l acc : List MaskData),
      List.Pairwise (fun a b => b.predicted_iou ≤ a.predicted_iou) acc →
      (List.foldl (fun a x => insertDesc x a) acc l).filter
          (fun m => decide (m.predicted_iou = q))
        = (acc ++ l).filter (fun m => decide (m.predicted_iou = q))
  | [], acc, _ => by simp
  | x :: l, acc, h => by
      simp only [List.foldl_cons]
      rw [foldl_insertDesc_filter q l (insertDesc x acc) (insertDesc_sorted h),
        List.filter_append, filter_insertDesc q x h,
        ← List.filter_append, List.append_assoc, List.singleton_append]

theorem sortByScoreDesc_stable (q : ℚ) (l : List MaskData) :
    (sortByScoreDesc l).filter (fun m => decide (m.predicted_iou = q))
      = l.filter (fun m => decide (m.predicted_iou = q)) := by
  simpa using foldl_insertDesc_filter q l [] (by simp)

theorem greedyFold_pairwise_score :
    ∀ (l acc : List MaskData),
      List.Pairwise (fun a b => b.predicted_iou ≤ a.predicted_iou) (acc ++ l) →
      List.Pairwise (fun a b => b.predicted_iou ≤ a.predicted_iou)
        (List.foldl (fun filtered current =>
          if is_overlapping filtered current then filtered else filtered ++ [current]) acc l)
  | [], acc, h => by simpa using h
  | x :: l, acc, h => by
      simp only [List.foldl_cons]
      by_cases hov : is_overlapping acc x
      · rw [if_pos hov]
        refine greedyFold_pairwise_score l acc (List.Pairwise.sublist ?_ h)
        exact List.Sublist.append_left (List.sublist_cons_self x l) acc
      · rw [if_neg hov]
        refine greedyFold_pairwise_score l (acc ++ [x]) ?_
        simpa [List.append_assoc] using h

theorem greedyAccept_sorted {l : List MaskData}
    (h : List.Pairwise (fun a b => b.predicted_iou ≤ a.predicted_iou) l) :
    List.Pairwise (fun a b => b.predicted_iou ≤ a.predicted_iou) (greedyAccept l) :=
  greedyFold_pairwise_score l [] (by simpa using h)

theorem greedyFold_pairwise_iou :
    ∀ (l acc : List MaskData),
      List.Pairwise iouLE acc →
      List.Pairwise iouLE
        (List.foldl (fun filtered current =>
          if is_overlapping filtered current then filtered else filtered ++ [current]) acc l)
  | [], acc, h => h
  | x :: l, acc, h => by
      simp only [List.foldl_cons]
      by_cases hov : is_overlapping acc x
      · rw [if_pos hov]
        exact greedyFold_pairwise_iou l acc h
      · rw [if_neg hov]
        refine greedyFold_pairwise_iou l (acc ++ [x]) ?_
        rw [List.pairwise_append]
        refine ⟨h, List.pairwise_singleton _ x, fun a ha b hb => ?_⟩
        rcases List.mem_singleton.mp hb with rfl
        have hna : ¬ overlap_threshold
            < calculate_mask_iou b.segmentation a.segmentation := by
          intro hcon
          apply hov
          unfold is_overlapping
          rw [List.any_eq_true]
          exact ⟨a, ha, by simpa using hcon⟩
        unfold iouLE
        rw [calculate_mask_iou_comm]
        exact le_of_not_lt hna

theorem greedyAccept_pairwise_iou (l : List MaskData) :
    List.Pairwise iouLE (greedyAccept l) :=
  greedyFold_pairwise_iou l [] (by simp)

theorem segment_everything_post_eq (masks : List MaskData) :
    segment_everything_post masks = everythingSuppressSpec masks := by
  unfold segment_everything_post everythingSuppressSpec filter_overlapping_masks
  by_cases h : masks.length ≤ 1
  · rw [if_pos h]
    match masks, h with
    | [], _ => rfl
    | [m], _ => rfl
  · rw [if_neg h,
      sortByScoreDesc_of_sorted (greedyAccept_sorted (sortByScoreDesc_sorted masks))]

theorem b64Val_b64Char : ∀ n < 64, b64Val (b64Char n) = n := by decide

theorem b64Char_ne_pad : ∀ n < 64, b64Char n ≠ '=' := by decide

theorem b64_roundtrip : ∀ l : List Nat, (∀ x ∈ l, x < 256) →
    b64DecodeChars (b64EncodeBytes l) = l
  | [], _ => rfl
  | [a], h => by
      have ha : a < 256 := h a (List.mem_singleton.mpr rfl)
      have h1 : b64Val (b64Char (a / 4)) = a / 4 := b64Val_b64Char _ (by omega)
      have h2 : b64Val (b64Char (a % 4 * 16)) = a % 4 * 16 := b64Val_b64Char _ (by omega)
      simp only [b64EncodeBytes, b64DecodeChars, if_pos, h1, h2]
      congr 1
      omega
  | [a, b], h => by
      have ha : a < 256 := h a (by simp)
      have hb : b < 256 := h b (by simp)
      have h1 : b64Val (b64Char (a / 4)) = a / 4 := b64Val_b64Char _ (by omega)
      have h2 : b64Val (b64Char (a % 4 * 16 + b / 16)) = a % 4 * 16 + b / 16 :=
        b64Val_b64Char _ (by omega)
      have h3 : b64Val (b64Char (b % 16 * 4)) = b % 16 * 4 := b64Val_b64Char _ (by omega)
      have hne : b64Char (b % 16 * 4) ≠ '=' := b64Char_ne_pad _ (by omega)
      simp only [b64EncodeBytes, b64DecodeChars, if_neg hne, if_pos, h1, h2, h3]
      congr 1
      · omega
      · congr 1
        omega
  | a :: b :: c :: rest, h => by
      have ha : a < 256 := h a (by simp)
      have hb : b < 256 := h b (by simp)
      have hc : c < 256 := h c (by simp)
      have h1 : b64Val (b64Char (a / 4)) = a / 4 := b64Val_b64Char _ (by omega)
      have h2 : b64Val (b64Char (a % 4 * 16 + b / 16)) = a % 4 * 16 + b / 16 :=
        b64Val_b64Char _ (by omega)
      have h3 : b64Val (b64Char (b % 16 * 4 + c / 64)) = b % 16 * 4 + c / 64 :=
        b64Val_b64Char _ (by omega)
      have h4 : b64Val (b64Char (c % 64)) = c % 64 := b64Val_b64Char _ (by omega)
      have hne3 : b64Char (b % 16 * 4 + c / 64) ≠ '=' := b64Char_ne_pad _ (by omega)
      have hne4 : b64Char (c % 64) ≠ '=' := b64Char_ne_pad _ (by omega)
      have htail : b64DecodeChars (b64EncodeBytes rest) = rest :=
        b64_roundtrip rest (fun x hx => h x (by simp [hx]))
      simp only [b64EncodeBytes]
      simp [b64DecodeChars, if_neg hne3, if_neg hne4, h1, h2, h3, h4, htail]
      omega

theorem segment_with_boxes_loop_spec (predict : Box → Bool → List Mask × List ℚ) :
    ∀ (boxes : List Box) (accM : List Mask) (accS : List ℚ) (accC : List ModelCall),
      boxes.foldl
          (fun acc box =>
            let r := predict box false
            ((acc.1.1 ++ r.1, acc.1.2 ++ r.2), acc.2 ++ [ModelCall.predictBox box false]))
          ((accM, accS), accC)
        = ((accM ++ (boxes.map fun b => (predict b false).1).flatten,
            accS ++ (boxes.map fun b => (predict b false).2).flatten),
           accC ++ boxes.map fun b => ModelCall.predictBox b false)
  | [], accM, accS, accC => by simp
  | box :: boxes, accM, accS, accC => by
      simp only [List.foldl_cons, List.map_cons, List.flatten_cons]
      rw [segment_with_boxes_loop_spec predict boxes]
      simp [List.append_assoc]

theorem segment_with_boxes_loop_eq (predict : Box → Bool → List Mask × List ℚ)
    (boxes : List Box) :
    segment_with_boxes_loop predict boxes
      = (((boxes.map fun b => (predict b false).1).flatten,
          (boxes.map fun b => (predict b false).2).flatten),
         boxes.map fun b => ModelCall.predictBox b false) := by
  unfold segment_with_boxes_loop
  simpa using segment_with_boxes_loop_spec predict boxes [] [] []

theorem flatten_length_of_singletons {α : Type} (L : List (List α))
    (h : ∀ l ∈ L, l.length = 1) : L.flatten.length = L.length := by
  induction L with
  | nil => rfl
  | cons l L ih =>
      simp only [List.flatten_cons, List.length_append, List.length_cons,
        h l (List.mem_cons_self l L), ih fun l' hl' => h l' (List.mem_cons_of_mem l hl')]
      omega

theorem stepRace_inv (st : LoadRaceState) (c : Bool) (h : raceInv st) :
    raceInv (stepRace st c) := by
  obtain ⟨ml, lc, pa, pb⟩ := st
  unfold raceInv at h
  unfold raceInv stepRace stepThread
  cases c <;> cases pa <;> cases pb <;> cases ml <;>
    simp_all [pcLoadContrib]

theorem runSchedule_inv : ∀ (sched : List Bool) (st : LoadRaceState),
    raceInv st → raceInv (runSchedule st sched)
  | [], _, h => h
  | c :: sched, st, h =>
      runSchedule_inv sched (stepRace st c) (stepRace_inv st c h)

theorem pcLoadContrib_le_one (pc : LoadPC) : pcLoadContrib pc ≤ 1 := by
  cases pc <;> simp [pcLoadContrib]

/-- C1: the everything-mode post-processor implements greedy overlap
suppression exactly: for every candidate list, `segment_everything`'s
post-processing (overlap filter, re-sort, truncate) equals the specified
algorithm - stable-sort by quality score descending, scan in that order
discarding a candidate exactly when its IoU against some accepted mask
exceeds 0.6, truncate to at most 25; moreover the sort is a permutation,
is descending on scores, and is stable (candidates of any given score keep
their original relative order). -/
theorem C1_everything_post_is_greedy_suppression (masks : List MaskData) :
    segment_everything_post masks = everythingSuppressSpec masks
    ∧ (sortByScoreDesc masks).Perm masks
    ∧ List.Pairwise (fun a b => b.predicted_iou ≤ a.predicted_iou) (sortByScoreDesc masks)
    ∧ ∀ q : ℚ, (sortByScoreDesc masks).filter (fun m => decide (m.predicted_iou = q))
        = masks.filter (fun m => decide (m.predicted_iou = q)) :=
  ⟨segment_everything_post_eq masks, sortByScoreDesc_perm masks,
    sortByScoreDesc_sorted masks, fun q => sortByScoreDesc_stable q masks⟩

/-- C2: every everything-mode result list has pairwise IoU at most the 0.6
threshold between all pairs of returned masks, and contains at most 25
masks. -/
theorem C2_everything_result_invariant (masks : List MaskData) :
    (segment_everything_post masks).length ≤ 25
    ∧ List.Pairwise iouLE (segment_everything_post masks) := by
  rw [segment_everything_post_eq]
  constructor
  · exact le_trans (List.length_take_le _ _) (le_refl 25)
  · exact List.Pairwise.sublist (List.take_sublist _ _) (greedyAccept_pairwise_iou _)

/-- C3: for a boxes-mode request with k boxes, the predictor is invoked once
per box with multimask output disabled, in box-input order; under the
collaborator contract that a single-mask query returns exactly one mask, the
result contains exactly k masks, the per-box masks concatenated in box-input
order. -/
theorem C3_boxes_one_mask_per_box (predict : Box → Bool → List Mask × List ℚ)
    (boxes : List Box) (h : ∀ b, ((predict b false).1).length = 1) :
    (segment_with_boxes_loop predict boxes).2
        = boxes.map (fun b => ModelCall.predictBox b false)
    ∧ ((segment_with_boxes_loop predict boxes).1.1).length = boxes.length
    ∧ (segment_with_boxes_loop predict boxes).1.1
        = (boxes.map fun b => (predict b false).1).flatten := by
  rw [segment_with_boxes_loop_eq]
  refine ⟨rfl, ?_, rfl⟩
  have hlen : (boxes.map fun b => (predict b false).1).flatten.length
      = (boxes.map fun b => (predict b false).1).length := by
    refine flatten_length_of_singletons _ fun l hl => ?_
    obtain ⟨b, _, rfl⟩ := List.mem_map.mp hl
    exact h b
  rw [hlen, List.length_map]

/-- C3 witness: a concrete two-box request against a collaborator returning
one mask per query yields exactly two masks and two single-mask predictor
calls. -/
theorem C3_boxes_one_mask_per_box_witness :
    ((segment_with_boxes_loop
        (fun _ _ => ([[true]], [(1 : ℚ)]))
        [((0 : Int), (0 : Int), (2 : Int), (2 : Int)),
         ((1 : Int), (1 : Int), (3 : Int), (3 : Int))]).1.1).length = 2 :=
  (C3_boxes_one_mask_per_box (fun _ _ => ([[true]], [(1 : ℚ)]))
    [((0 : Int), (0 : Int), (2 : Int), (2 : Int)),
     ((1 : Int), (1 : Int), (3 : Int), (3 : Int))] (fun _ => rfl)).2.1

/-- C7: for every lifecycle state, GET /health returns HTTP 200 with a
healthy body whose `model_loaded` boolean is true exactly in the
inference-ready state (predictor constructed and model loaded); it never
returns an error status code. -/
theorem C7_health_always_200 (st : ServiceState) (device : String) :
    (health_check st device).1 = 200
    ∧ (health_check st device).2.status = "healthy"
    ∧ (health_check st device).2.service_running = true
    ∧ ((health_check st device).2.model_loaded
        = (st.predictorExists && st.modelLoaded)) :=
  ⟨rfl, rfl, rfl, rfl⟩

/-- C8: for every boolean mask, encoding it (true→255, false→0, lossless
serialization, base64 text) and decoding the result reproduces the original
mask exactly. -/
theorem C8_mask_encode_roundtrip (codec : LosslessCodec) (mask : Mask) :
    decode_mask_from_base64 codec (encode_mask_to_base64 codec mask) = mask := by
  unfold decode_mask_from_base64 encode_mask_to_base64
  have hchars : (String.mk (b64EncodeBytes
      (codec.enc (mask.map fun b => if b then 255 else 0)))).toList
      = b64EncodeBytes (codec.enc (mask.map fun b => if b then 255 else 0)) := rfl
  rw [hchars]
  have hbytes : ∀ x ∈ mask.map fun b => if b then 255 else 0, x < 256 := by
    intro x hx
    obtain ⟨b, _, rfl⟩ := List.mem_map.mp hx
    cases b <;> norm_num
  rw [b64_roundtrip _ (codec.enc_bytes _ hbytes), codec.roundtrip, List.map_map]
  have : ((fun p => p != 0) ∘ fun b => if b then (255 : Nat) else 0) = id := by
    funext b
    cases b <;> rfl
  rw [this, List.map_id]

/-- C8 witness: the round trip evaluated at a concrete mask and a concrete
lossless serializer. -/
theorem C8_mask_encode_roundtrip_witness :
    decode_mask_from_base64 idCodec
        (encode_mask_to_base64 idCodec [true, false, true]) = [true, false, true] :=
  C8_mask_encode_roundtrip idCodec [true, false, true]

/-- C9 counterexample: with both callers arriving while the model is
Unloaded, the schedule in which both already-loaded checks run before either
load (check A, check B, load A, load B - possible because the check and the
awaited `load_model()` are separated by suspension points and `load_model_endpoint`
takes no lock) executes the underlying load twice, refuting "exactly one
underlying load operation". -/
theorem C9_concurrent_load_counterexample :
    (runSchedule initRace [true, false, true, false]).loadCount = 2
    ∧ (runSchedule initRace [true, false, true, false]).pcA = LoadPC.doneLoaded
    ∧ (runSchedule initRace [true, false, true, false]).pcB = LoadPC.doneLoaded := by
  refine ⟨rfl, rfl, rfl⟩

/-- C9 (amended): `load_model_endpoint` does not serialize concurrent loads;
a caller skips loading only when its check observes an already-loaded model.
Sequentially ordered callers therefore produce exactly one underlying load,
while an arbitrary interleaving of two callers produces at most two (and the
interleaved-checks schedule reaches two). -/
theorem C9_load_not_single_flight (sched : List Bool) :
    (runSchedule initRace [true, true, false, false]).loadCount = 1
    ∧ (runSchedule initRace sched).loadCount ≤ 2 := by
  refine ⟨rfl, ?_⟩
  have h := runSchedule_inv sched initRace (by simp [raceInv, initRace, pcLoadContrib])
  unfold raceInv at h
  have ha := pcLoadContrib_le_one (runSchedule initRace sched).pcA
  have hb := pcLoadContrib_le_one (runSchedule initRace sched).pcB
  omega

theorem run_segmentation_not_loaded
    (eR : Except String (List MaskData)) (pR : Except String (List Mask × List ℚ))
    (predict : Box → Bool → List Mask × List ℚ) (mode : String)
    (points : Option (List Pt)) (boxes : Option (List Box)) :
    ∃ e, run_segmentation false eR pR predict mode points boxes
      = (Except.error e, []) := by
  unfold run_segmentation
  split_ifs
  · exact ⟨"Model not loaded", rfl⟩
  · exact ⟨"Model not loaded", rfl⟩
  · exact ⟨"Model not loaded", rfl⟩
  · exact ⟨_, rfl⟩

/-- C4 counterexample: with the predictor object constructed but its model
load failed (state ⟨true, false⟩ - reachable because `startup_event` assigns
the global `predictor` before `load_model()` can fail), a /segment request is
not answered with HTTP 503: `segment_everything` raises
`RuntimeError("Model not loaded")` and the blanket `except Exception` maps it
to HTTP 500. -/
theorem C4_not_ready_counterexample :
    segment_image_handler ⟨true, false⟩ (fun _ => some ⟨2, 2⟩) (fun _ => "")
        (Except.ok []) (Except.ok ([], [])) (fun _ _ => ([], []))
        [0] "everything" none none
      = (HandlerResult.httpError 500 "Model not loaded", [])
    ∧ resultStatus (segment_image_handler ⟨true, false⟩ (fun _ => some ⟨2, 2⟩)
        (fun _ => "") (Except.ok []) (Except.ok ([], [])) (fun _ _ => ([], []))
        [0] "everything" none none).1 ≠ 503 :=
  ⟨rfl, by decide⟩

/-- C4 (amended): while the model is not Ready, /segment never invokes the
underlying model and the request fails - with HTTP 503 exactly when the
global predictor object was never constructed, and with HTTP 500 (the
predictor's "Model not loaded" error, an image error, or a mode error,
wrapped by the blanket except) when the object exists but its load has not
completed. -/
theorem C4_not_ready_rejected (st : ServiceState)
    (decode : List Nat → Option RasterImage) (enc : Mask → String)
    (eR : Except String (List MaskData)) (pR : Except String (List Mask × List ℚ))
    (predict : Box → Bool → List Mask × List ℚ)
    (bytes : List Nat) (mode : String)
    (points : Option (List Pt)) (boxes : Option (List Box))
    (h : st.modelLoaded = false) :
    (segment_image_handler st decode enc eR pR predict bytes mode points boxes).2 = []
    ∧ (st.predictorExists = false →
        segment_image_handler st decode enc eR pR predict bytes mode points boxes
          = (HandlerResult.httpError 503 "SAM 2 model not loaded", []))
    ∧ (st.predictorExists = true →
        ∃ d, segment_image_handler st decode enc eR pR predict bytes mode points boxes
          = (HandlerResult.httpError 500 d, [])) := by
  cases hpe : st.predictorExists with
  | false =>
      have hres : segment_image_handler st decode enc eR pR predict bytes mode points boxes
          = (HandlerResult.httpError 503 "SAM 2 model not loaded", []) := by
        simp [segment_image_handler, hpe]
      exact ⟨by rw [hres], fun _ => hres,
        fun hc => absurd hc (by decide)⟩
  | true =>
      have hmain : ∃ d, segment_image_handler st decode enc eR pR predict
          bytes mode points boxes = (HandlerResult.httpError 500 d, []) := by
        cases hdec : decode bytes with
        | none =>
            refine ⟨"400: Invalid image data", ?_⟩
            simp [segment_image_handler, hpe, hdec]
        | some img =>
            obtain ⟨e, he⟩ :=
              run_segmentation_not_loaded eR pR predict mode points boxes
            refine ⟨e, ?_⟩
            simp [segment_image_handler, hpe, hdec, h, he]
      obtain ⟨d, hd⟩ := hmain
      exact ⟨by rw [hd], fun hc => absurd hc (by decide),
        fun _ => ⟨d, hd⟩⟩

/-- C4 witness: the amended statement applied to the concrete state in which
the predictor object was never constructed: the request is answered 503. -/
theorem C4_not_ready_rejected_witness :
    segment_image_handler ⟨false, false⟩ (fun _ => some ⟨1, 1⟩) (fun _ => "")
        (Except.ok []) (Except.ok ([], [])) (fun _ _ => ([], []))
        [0] "everything" none none
      = (HandlerResult.httpError 503 "SAM 2 model not loaded", []) :=
  (C4_not_ready_rejected ⟨false, false⟩ (fun _ => some ⟨1, 1⟩) (fun _ => "")
    (Except.ok []) (Except.ok ([], [])) (fun _ _ => ([], []))
    [0] "everything" none none rfl).2.1 rfl

/-- C5: evaluation at the failing input - the predictor present and loaded,
the uploaded bytes undecodable.  `process_image_data` raises
`HTTPException(400, "Invalid image data")`, but `segment_image`'s blanket
`except Exception` at line 289 catches it and re-raises
`HTTPException(500, str(e))`, i.e. HTTP 500 with detail
"400: Invalid image data"; the model is never invoked.  The claim (and the
code's own inner `raise`) intend HTTP 400. -/
theorem C5_invalid_image_wrapped_to_500 :
    segment_image_handler ⟨true, true⟩ (fun _ => none) (fun _ => "")
        (Except.ok []) (Except.ok ([], [])) (fun _ _ => ([], []))
        [1, 2, 3] "everything" none none
      = (HandlerResult.httpError 500 "400: Invalid image data", []) := rfl

/-- C6 counterexample: an unrecognized mode string, with the model loaded and
a decodable image, is answered with HTTP 500 (the `ValueError` of
`run_segmentation` wrapped by the blanket except), not the claimed 400; no
model entry point is invoked (empty call trace). -/
theorem C6_invalid_mode_counterexample :
    (segment_image_handler ⟨true, true⟩ (fun _ => some ⟨1, 1⟩) (fun _ => "")
        (Except.ok []) (Except.ok ([], [])) (fun _ _ => ([], []))
        [0] "bogus" none none
      = (HandlerResult.httpError 500 "Invalid segmentation mode: bogus", []))
    ∧ resultStatus (segment_image_handler ⟨true, true⟩ (fun _ => some ⟨1, 1⟩)
        (fun _ => "") (Except.ok []) (Except.ok ([], [])) (fun _ _ => ([], []))
        [0] "bogus" none none).1 ≠ 400 :=
  ⟨rfl, by decide⟩

/-- C6 (amended): every request with an invalid mode/prompt combination
(points mode with zero points, boxes mode with zero boxes, or an unrecognized
mode string) fails before any model entry point is invoked, surfaced as HTTP
500 with detail "Invalid segmentation mode: <mode>" (the ValueError wrapped by
the blanket except), not as HTTP 400. -/
theorem C6_invalid_mode_rejected_500 (st : ServiceState)
    (decode : List Nat → Option RasterImage) (enc : Mask → String)
    (eR : Except String (List MaskData)) (pR : Except String (List Mask × List ℚ))
    (predict : Box → Bool → List Mask × List ℚ)
    (bytes : List Nat) (img : RasterImage) (mode : String)
    (points : Option (List Pt)) (boxes : Option (List Box))
    (h1 : st.predictorExists = true) (h2 : decode bytes = some img)
    (h3 : mode ≠ "everything")
    (h4 : ¬(mode = "points" ∧ optNonempty points = true))
    (h5 : ¬(mode = "boxes" ∧ optNonempty boxes = true)) :
    segment_image_handler st decode enc eR pR predict bytes mode points boxes
      = (HandlerResult.httpError 500 ("Invalid segmentation mode: " ++ mode), []) := by
  simp only [segment_image_handler, h1, h2]
  rw [run_segmentation, if_neg h3, if_neg h4, if_neg h5]
  simp

/-- C6 witness: the amended statement applied to a concrete points-mode
request carrying zero points. -/
theorem C6_invalid_mode_rejected_500_witness :
    segment_image_handler ⟨true, true⟩ (fun _ => some ⟨1, 1⟩) (fun _ => "")
        (Except.ok []) (Except.ok ([], [])) (fun _ _ => ([], []))
        [0] "points" (some []) none
      = (HandlerResult.httpError 500 "Invalid segmentation mode: points", []) :=
  C6_invalid_mode_rejected_500 ⟨true, true⟩ (fun _ => some ⟨1, 1⟩) (fun _ => "")
    (Except.ok []) (Except.ok ([], [])) (fun _ _ => ([], []))
    [0] ⟨1, 1⟩ "points" (some []) none rfl rfl (by decide) (by decide) (by decide)

/-- C10: when the model returns more masks than scores, every mask at an
index without a score is still included - with score 0.0 and its id, encoded
payload and pixel area intact - and the request succeeds: the handler builds
one result per mask and answers with a success body. -/
theorem C10_missing_scores_default_zero (enc : Mask → String)
    (masks : List Mask) (scores : List ℚ) (h : scores.length < masks.length) :
    (build_mask_results enc masks scores).length = masks.length
    ∧ (∀ i, scores.length ≤ i → i < masks.length →
        (build_mask_results enc masks scores).getD i ⟨0, "", 0, 0⟩
          = ⟨i, enc (masks.getD i []), 0, (masks.getD i []).count true⟩)
    ∧ ∀ (st : ServiceState) (decode : List Nat → Option RasterImage)
        (eR : Except String (List MaskData)) (predict : Box → Bool → List Mask × List ℚ)
        (bytes : List Nat) (img : RasterImage) (points : List Pt),
        st.predictorExists = true → st.modelLoaded = true →
        decode bytes = some img → points ≠ [] →
        segment_image_handler st decode enc eR (Except.ok (masks, scores)) predict
            bytes "points" (some points) none
          = (HandlerResult.ok
              { success := true, mode := "points",
                num_masks := masks.length,
                masks := build_mask_results enc masks scores,
                image_shape := (img.height, img.width) },
             [ModelCall.predictPoints points true]) := by
  have hlen : (build_mask_results enc masks scores).length = masks.length := by
    simp [build_mask_results]
  refine ⟨hlen, fun i hsc hi => ?_, ?_⟩
  · have hi' : i < (build_mask_results enc masks scores).length := by rw [hlen]; exact hi
    rw [List.getD_eq_getElem _ _ hi']
    have hie : i < masks.enum.length := by rw [List.enum_length]; exact hi
    simp only [build_mask_results, List.getElem_map, List.getElem_enum]
    have hscore : scores.getD i 0 = 0 := List.getD_eq_default _ _ hsc
    have hmask : masks.getD i [] = masks[i] := List.getD_eq_getElem _ _ hi
    rw [hscore, hmask]
  · intro st decode eR predict bytes img points h1 h2 h3 h4
    have hopt : optNonempty (some points) = true := by
      simpa [optNonempty, List.isEmpty_iff] using h4
    simp only [segment_image_handler, h1, h3, run_segmentation]
    rw [if_pos (⟨trivial, hopt⟩ : True ∧ optNonempty (some points) = true)]
    simp only [predictor_segment_with_points, h2, Option.getD_some, if_true]
    simp [hlen]

/-- C10 witness: two masks against a single score; the second mask keeps its
id, payload and area with score 0, and the handler answers success. -/
theorem C10_missing_scores_default_zero_witness :
    (build_mask_results (fun _ => "m") [[true], [false, true]] [(1 : ℚ)/2]).getD 1
        ⟨0, "", 0, 0⟩
      = ⟨1, "m", 0, 1⟩
    ∧ segment_image_handler ⟨true, true⟩ (fun _ => some ⟨1, 2⟩) (fun _ => "m")
        (Except.ok []) (Except.ok ([[true], [false, true]], [(1 : ℚ)/2]))
        (fun _ _ => ([], [])) [0] "points" (some [((0 : Int), (0 : Int))]) none
      = (HandlerResult.ok
          { success := true, mode := "points", num_masks := 2,
            masks := build_mask_results (fun _ => "m") [[true], [false, true]] [(1 : ℚ)/2],
            image_shape := (1, 2) },
         [ModelCall.predictPoints [((0 : Int), (0 : Int))] true]) := by
  have hmain := C10_missing_scores_default_zero (fun _ => "m")
    [[true], [false, true]] [(1 : ℚ)/2] (by decide)
  refine ⟨?_, ?_⟩
  · have := hmain.2.1 1 (by decide) (by decide)
    simpa using this
  · have := hmain.2.2 ⟨true, true⟩ (fun _ => some ⟨1, 2⟩) (Except.ok [])
      (fun _ _ => ([], [])) [0] ⟨1, 2⟩ [((0 : Int), (0 : Int))] rfl rfl rfl (by decide)
    simpa using this

end ScrapLens
